import Mathlib

/-!
# Verification of `cmd/config-v15.go` (portworx/minio)

Shallow embedding of the version-15 server-configuration subsystem:
the duplicate-JSON-key scanner (`doCheckDupJSONKeys` / `checkDupJSONKeys`),
the lifecycle functions (`newServerConfigV15`, `loadConfig`, `validateConfig`)
and the snapshot accessors (`SetRegion`/`GetRegion`, `SetBrowser`/`GetBrowser`,
`SetCredential`, `GetVersion`), together with proofs of the spec's testable
properties about them.

External collaborators (the `quick` serializer, `gjson` parsing, file I/O,
credential generation, the logger/notifier validators, path resolution) are
not part of the source file; they are modelled from the spec as explicit
inputs.  The `serverConfigMu` reader/writer lock has no counterpart in this
sequential embedding: every embedded operation is one atomic step, and the
lock-ordering guarantees themselves are out of scope here.
-/

namespace ConfigV15

/-- Parsed JSON value, as the `gjson` tree walker exposes it: a tagged
variant of object / array / scalar.  Object members are kept as an ordered
list of key/value pairs *with duplicates preserved* — `gjson.Parse` keeps
the raw document text and `ForEach` iterates it, so a repeated key appears
once per occurrence. -/
inductive JVal where
  | null : JVal
  | bool : Bool → JVal
  | num : String → JVal
  | str : String → JVal
  | obj : List (String × JVal) → JVal
  | arr : List JVal → JVal

/-- Modelled from the spec: one step of the `gjson` `Result.ForEach` tree
walker, which `doCheckDupJSONKeys` iterates with.  Objects yield each member
as a (named key, value) pair in document order; arrays are traversed
element-wise but array elements are unnamed — the iterator passes a
Null-typed key, modelled as `none`; a non-object, non-array value is passed
back once, itself, with a Null key. -/
def forEachChildren : JVal → List (Option String × JVal)
  | .obj entries => entries.map fun kv => (some kv.1, kv.2)
  | .arr elems => elems.map fun v => ((none : Option String), v)
  | v => [(none, v)]

/-- The scan of the `keysOcc` occurrence map after the `ForEach` loop of
`doCheckDupJSONKeys`: report a key whose count in the current scope exceeds
one.  The Go code ranges over a map, whose iteration order is unspecified;
the model fixes document order (the first key, scanning the scope's named
keys in order, whose total occurrence count exceeds 1). -/
def firstDup (keysOcc : List String) : Option String :=
  keysOcc.find? fun k => 1 < keysOcc.count k

/-- Some key occurs more than once in the list. -/
def dupKeys (keys : List String) : Bool :=
  keys.any fun k => 1 < keys.count k

mutual
/-- Size of a JSON value, used as the scanner's termination measure. -/
def jsize : JVal → Nat
  | .obj entries => 1 + esize entries
  | .arr elems => 1 + elems.length
  | _ => 2
/-- Size of an object's member list, used as a termination measure. -/
def esize : List (String × JVal) → Nat
  | [] => 0
  | kv :: rest => 2 + jsize kv.2 + esize rest
end

/-- Termination measure: weight of one `ForEach` child.  A child with a
Null key is skipped by the scanner's guard and never recursed into, so it
weighs nothing beyond its list slot. -/
def childWeight : Option String × JVal → Nat
  | (none, _) => 0
  | (some _, v) => 1 + jsize v

/-- Termination measure for the scanner's loop over a child list. -/
def childrenWeight : List (Option String × JVal) → Nat
  | [] => 0
  | c :: rest => 1 + childWeight c + childrenWeight rest

mutual

/-- Function `doCheckDupJSONKeys` from `cmd/config-v15.go`: recursively detects
duplicate JSON keys.  For the current scope it builds a fresh key-occurrence
table (`keysOcc`, here the ordered list of named keys seen) while iterating
the `ForEach` children; a child whose key is Null (`k.Type != gjson.Null`
fails, i.e. array elements and the self-child of a scalar) is neither
counted nor recursed into; the first error from a recursive call stops the
iteration (`return checkErr == nil`) and is wrapped as
`key => <inner error>`; otherwise a key counted more than once yields
``key => `k` entry is duplicated``. -/
def doCheckDupJSONKeys (key : String) (value : JVal) : Option String :=
  match scanChildren (forEachChildren value) [] with
  | .inr checkErr => some (key ++ " => " ++ checkErr)
  | .inl keysOcc =>
    match firstDup keysOcc with
    | some k => some (key ++ " => `" ++ k ++ "` entry is duplicated")
    | none => none
termination_by 1 + jsize value
decreasing_by
  have hnamed : ∀ es : List (String × JVal),
      childrenWeight (es.map fun kv => (some kv.1, kv.2)) = esize es := by
    intro es
    induction es with
    | nil => simp [childrenWeight, esize]
    | cons kv rest ih => simp [childrenWeight, childWeight, ih, esize]; omega
  have hnull : ∀ elems : List JVal,
      childrenWeight (elems.map fun v => ((none : Option String), v)) = elems.length := by
    intro elems
    induction elems with
    | nil => simp [childrenWeight]
    | cons v rest ih => simp [childrenWeight, childWeight, ih]; omega
  have h1 : childrenWeight (forEachChildren value) < jsize value := by
    cases value with
    | obj entries => simp [forEachChildren, jsize, hnamed]
    | arr elems => simp [forEachChildren, jsize, hnull]
    | null => simp [forEachChildren, jsize, childrenWeight, childWeight]
    | bool b => simp [forEachChildren, jsize, childrenWeight, childWeight]
    | num s => simp [forEachChildren, jsize, childrenWeight, childWeight]
    | str s => simp [forEachChildren, jsize, childrenWeight, childWeight]
  omega

/-- The `value.ForEach` loop body of `doCheckDupJSONKeys`: `occ` accumulates
the named keys seen so far (the occurrence table), `.inr e` is the first
error returned by a recursive check, which stops the iteration. -/
def scanChildren (cs : List (Option String × JVal)) (occ : List String) :
    Sum (List String) String :=
  match cs with
  | [] => .inl occ
  | (none, _) :: rest => scanChildren rest occ
  | (some k, v) :: rest =>
    match doCheckDupJSONKeys k v with
    | some e => .inr e
    | none => scanChildren rest (occ ++ [k])
termination_by childrenWeight cs
decreasing_by
  · simp only [childrenWeight]; omega
  · simp only [childrenWeight, childWeight]; omega
  · simp only [childrenWeight, childWeight]; omega

end

/-- The config file base name (constant `minioConfigFile`, defined outside
this source file); it only serves as the fake root key of the breadcrumb. -/
def minioConfigFile : String := "config.json"

/-- Function `checkDupJSONKeys` from `cmd/config-v15.go`: parse the document with
`gjson.Parse` (parsing belongs to the external collaborator, so the model
receives the already-parsed tree), create a fake root key since the root has
no representation, and scan recursively. -/
def checkDupJSONKeys (config : JVal) : Option String :=
  let rootKey := minioConfigFile
  doCheckDupJSONKeys rootKey config

mutual
/-- Specification-side predicate: the value contains, at itself or reachable
through *object members only* (the scopes the scanner's Null-key guard lets
it reach), an object scope with a repeated key. -/
def hasDup : JVal → Bool
  | .obj entries => dupKeys (entries.map Prod.fst) || hasDupEntries entries
  | _ => false
/-- Some member value of the list satisfies `hasDup`. -/
def hasDupEntries : List (String × JVal) → Bool
  | [] => false
  | kv :: rest => hasDup kv.2 || hasDupEntries rest
end

mutual
/-- Specification-side predicate: the document contains *anywhere* —
including inside arrays — an object scope with a repeated key.  This is the
claim's notion of "containing at least one object scope with a repeated key
name". -/
def hasDupAnywhere : JVal → Bool
  | .obj entries => dupKeys (entries.map Prod.fst) || hasDupAnywhereEntries entries
  | .arr elems => hasDupAnywhereElems elems
  | _ => false
/-- Some member value of the object's member list has a duplicate scope. -/
def hasDupAnywhereEntries : List (String × JVal) → Bool
  | [] => false
  | kv :: rest => hasDupAnywhere kv.2 || hasDupAnywhereEntries rest
/-- Some element of the array has a duplicate scope. -/
def hasDupAnywhereElems : List JVal → Bool
  | [] => false
  | v :: rest => hasDupAnywhere v || hasDupAnywhereElems rest
end

/-- Predicate `DupScopeAt key value e d`: descending from `value` (whose enclosing
key name is `key`) through object members only, there is an object scope
whose enclosing key name is `e` and in which the key `d` occurs more than
once. -/
inductive DupScopeAt : String → JVal → String → String → Prop where
  | here (key : String) (entries : List (String × JVal)) (d : String)
      (hd : 1 < (entries.map Prod.fst).count d) :
      DupScopeAt key (.obj entries) key d
  | there (key : String) (entries : List (String × JVal)) (k : String) (v : JVal)
      (e d : String) (hm : (k, v) ∈ entries) (h : DupScopeAt k v e d) :
      DupScopeAt key (.obj entries) e d

/-- Modelled from the spec: the S3 credential pair (`credential`, an
external collaborator type; its well-formedness check is opaque). -/
structure credential where
  accessKey : String
  secretKey : String
deriving DecidableEq

/-- Modelled from the spec: console logging configuration (external type
`consoleLogger`; only the fields `newServerConfigV15` assigns are kept). -/
structure consoleLogger where
  Enable : Bool := false
  Level : String := ""
deriving DecidableEq

/-- Modelled from the spec: file logging configuration (external type
`fileLogger`). -/
structure fileLogger where
  Enable : Bool := false
  Level : String := ""
  Filename : String := ""
deriving DecidableEq

/-- Modelled from the spec: error-logging configuration (external type
`logger`). -/
structure logger where
  Console : consoleLogger := {}
  File : fileLogger := {}
deriving DecidableEq

/-- Modelled from the spec: notification-queue configuration (external type
`notifier`): one mapping, name → backend config, per backend family; the
backend payloads are opaque and modelled as `Unit`. -/
structure notifier where
  AMQP : List (String × Unit) := []
  ElasticSearch : List (String × Unit) := []
  Redis : List (String × Unit) := []
  NATS : List (String × Unit) := []
  PostgreSQL : List (String × Unit) := []
  MySQL : List (String × Unit) := []
  Kafka : List (String × Unit) := []
  Webhook : List (String × Unit) := []
deriving DecidableEq

/-- Structure `serverConfigV15` from `cmd/config-v15.go`: the version-15 snapshot.
Go's `*logger` / `*notifier` pointers are modelled as plain values (no
claim exercises nil-ness). -/
structure serverConfigV15 where
  Version : String
  Credential : credential
  Region : String
  Browser : String
  Logger : logger
  Notify : notifier
deriving DecidableEq

/-- Config version (`var v15 = "15"`). -/
def v15 : String := "15"

/-- Modelled from the spec: the fixed fallback region constant
(`globalMinioDefaultRegion`, defined outside this source file). -/
def globalMinioDefaultRegion : String := "us-east-1"

/-- Method `GetVersion` — get current config version (value receiver, read only
under `RLock`). -/
def serverConfigV15.GetVersion (s : serverConfigV15) : String :=
  s.Version

/-- Method `SetRegion` — set new region (pointer receiver under `Lock`); an empty
region is substituted by `"us-east-1"` *before* storing. -/
def serverConfigV15.SetRegion (s : serverConfigV15) (region : String) : serverConfigV15 :=
  let region := if region = "" then "us-east-1" else region
  { s with Region := region }

/-- Method `GetRegion` — get current region (value receiver under `RLock`); an
empty stored region is substituted by `"us-east-1"` in the returned value
only. -/
def serverConfigV15.GetRegion (s : serverConfigV15) : String :=
  if s.Region ≠ "" then s.Region else "us-east-1"

/-- Method `GetRegion` seen as a call: the pair of the returned string and
the receiver as it stands when the call returns.  The Go receiver is passed
by value and the body contains no assignment to any field, so the snapshot
component is the receiver unchanged. -/
def serverConfigV15.GetRegionCall (s : serverConfigV15) : String × serverConfigV15 :=
  (s.GetRegion, s)

/-- Method `SetCredential` — set new credentials (pointer receiver under `Lock`). -/
def serverConfigV15.SetCredential (s : serverConfigV15) (creds : credential) : serverConfigV15 :=
  { s with Credential := creds }

/-- Method `GetCredential` — get current credentials (value receiver under `RLock`). -/
def serverConfigV15.GetCredential (s : serverConfigV15) : credential :=
  s.Credential

/-- Method `SetBrowser` — set if browser is enabled (pointer receiver under
`Lock`); an empty value is substituted by `"on"` *before* storing. -/
def serverConfigV15.SetBrowser (s : serverConfigV15) (v : String) : serverConfigV15 :=
  let v := if v = "" then "on" else v
  { s with Browser := v }

/-- Method `GetBrowser` — get the browser flag (value receiver under `RLock`); an
empty stored value is read as `"on"`. -/
def serverConfigV15.GetBrowser (s : serverConfigV15) : String :=
  if s.Browser ≠ "" then s.Browser else "on"

/-- Function `newServerConfigV15` from `cmd/config-v15.go`: the fresh-install default
snapshot.  `mustGetNewCredential()` is an external generator, so the fresh
credential arrives as the parameter `freshCreds`.  Note the literal
`srvCfg.SetBrowser("off")`. -/
def newServerConfigV15 (freshCreds : credential) : serverConfigV15 :=
  let srvCfg : serverConfigV15 := {
    Version := v15
    Region := globalMinioDefaultRegion
    Credential := { accessKey := "", secretKey := "" }
    Browser := ""
    Logger := {}
    Notify := {} }
  let srvCfg := srvCfg.SetCredential freshCreds
  let srvCfg := srvCfg.SetBrowser "off"
  let srvCfg := { srvCfg with
    Logger := {
      Console := { Enable := true, Level := "error" }
      File := { Enable := true, Level := "error", Filename := "/var/log/px-obj.log" } } }
  let srvCfg := { srvCfg with
    Notify := {
      AMQP := [("1", ())]
      ElasticSearch := [("1", ())]
      Redis := [("1", ())]
      NATS := [("1", ())]
      PostgreSQL := [("1", ())]
      MySQL := [("1", ())]
      Kafka := [("1", ())]
      Webhook := [("1", ())] } }
  srvCfg

/-- Modelled from the spec: `strings.ToLower` from the Go standard library
(an external collaborator), character-wise lowercasing.  (`String.toLower`
from the Lean library is extensionally the same map but is defined by
well-founded recursion, which blocks evaluation inside proofs, so the model
maps `Char.toLower` over the character list directly.) -/
def goToLower (s : String) : String := ⟨s.data.map Char.toLower⟩

/-- Structure `envParams`: the environment-override values consulted by the lifecycle
functions. -/
structure envParams where
  creds : credential
  browser : String

/-- The process-wide mutable globals this file touches: the published
snapshot `serverConfig` (no snapshot before the first publish) and the
browser-UI flag `globalIsBrowserEnabled` (declared and initialized outside
this source file). -/
structure ProcessState where
  serverConfig : Option serverConfigV15
  globalIsBrowserEnabled : Bool
deriving DecidableEq

/-- Function `loadConfig` from `cmd/config-v15.go`.  The external effects arrive as
inputs: `statErr` for `os.Stat`, `quickNewErr` for `quick.New`, and
`quickLoadRes` for `qc.Load` (on success, the snapshot deserialized from
disk); `globalIsEnvCreds` / `globalIsEnvBrowser` are the environment-source
flags (globals set outside this file).  Returns the Go error (`none` = nil)
and the updated globals.  Note the order: the snapshot is published
*before* the version check. -/
def loadConfig (statErr : Option String) (quickNewErr : Option String)
    (quickLoadRes : Except String serverConfigV15)
    (globalIsEnvCreds globalIsEnvBrowser : Bool) (env : envParams)
    (st : ProcessState) : Option String × ProcessState :=
  match statErr with
  | some e => (some e, st)
  | none =>
    match quickNewErr with
    | some e => (some e, st)
    | none =>
      match quickLoadRes with
      | .error e => (some e, st)
      | .ok srvCfg =>
        let srvCfg := if globalIsEnvCreds then srvCfg.SetCredential env.creds else srvCfg
        let srvCfg := if globalIsEnvBrowser then srvCfg.SetBrowser env.browser else srvCfg
        let st := if goToLower srvCfg.GetBrowser = "off"
          then { st with globalIsBrowserEnabled := false } else st
        let st := { st with serverConfig := some srvCfg }
        if srvCfg.Version ≠ v15 then
          (some ("Unsupported config version `" ++ srvCfg.Version ++ "`."), st)
        else
          (none, st)

/-- Function `validateConfig` from `cmd/config-v15.go`.  External inputs:
`quickNewErr` for `quick.New`, `quickLoadRes` for `qc.Load`, `readFileRes`
for `ioutil.ReadFile` followed by `gjson` parsing (the model receives the
parsed tree), `credIsValid` for `srvCfg.Credential.IsValid()`, and
`loggerErr` / `notifyErr` for the two downstream validators.  Checks run in
source order and the first failure is returned. -/
def validateConfig (quickNewErr : Option String)
    (quickLoadRes : Except String serverConfigV15)
    (readFileRes : Except String JVal)
    (credIsValid : Bool) (loggerErr notifyErr : Option String) : Option String :=
  match quickNewErr with
  | some e => some e
  | none =>
    match quickLoadRes with
    | .error e => some e
    | .ok srvCfg =>
      if srvCfg.GetVersion ≠ v15 then
        some ("bad config version, expected: " ++ v15)
      else
        match readFileRes with
        | .error e => some e
        | .ok jsonDoc =>
          match checkDupJSONKeys jsonDoc with
          | some e => some e
          | none =>
            if srvCfg.GetRegion = "" then
              some "Region config value cannot be empty"
            else
              let b := goToLower srvCfg.GetBrowser
              if b ≠ "on" ∧ b ≠ "off" then
                some ("Browser config value " ++ b ++ " is invalid")
              else if ¬ credIsValid then
                some "invalid credential"
              else
                match loggerErr with
                | some e => some e
                | none =>
                  match notifyErr with
                  | some e => some e
                  | none => none

/-! ## Helper lemmas about the duplicate-key scanner -/

theorem firstDup_eq_none_iff (ks : List String) : firstDup ks = none ↔ dupKeys ks = false := by
  simp [firstDup, dupKeys, List.find?_eq_none, List.any_eq_false]

theorem firstDup_eq_some (ks : List String) (d : String) (h : firstDup ks = some d) :
    d ∈ ks ∧ 1 < ks.count d := by
  have h1 := List.find?_some h
  have h2 := List.mem_of_find?_eq_some h
  simp at h1
  exact ⟨h2, h1⟩

theorem dupKeys_of_firstDup_some (ks : List String) (d : String) (h : firstDup ks = some d) :
    dupKeys ks = true := by
  obtain ⟨hm, hc⟩ := firstDup_eq_some ks d h
  simp [dupKeys, List.any_eq_true]
  exact ⟨d, hm, hc⟩

theorem hasDupEntries_eq_false_iff (entries : List (String × JVal)) :
    hasDupEntries entries = false ↔ ∀ k v, (k, v) ∈ entries → hasDup v = false := by
  induction entries with
  | nil => simp [hasDupEntries]
  | cons kv rest ih =>
    simp only [hasDupEntries, Bool.or_eq_false_iff, ih, List.mem_cons]
    constructor
    · rintro ⟨h1, h2⟩ k v (h | h)
      · cases h; exact h1
      · exact h2 k v h
    · intro h
      exact ⟨h kv.1 kv.2 (Or.inl rfl), fun k v hm => h k v (Or.inr hm)⟩

theorem hasDupAnywhereEntries_eq_false_iff (entries : List (String × JVal)) :
    hasDupAnywhereEntries entries = false ↔
      ∀ k v, (k, v) ∈ entries → hasDupAnywhere v = false := by
  induction entries with
  | nil => simp [hasDupAnywhereEntries]
  | cons kv rest ih =>
    simp only [hasDupAnywhereEntries, Bool.or_eq_false_iff, ih, List.mem_cons]
    constructor
    · rintro ⟨h1, h2⟩ k v (h | h)
      · cases h; exact h1
      · exact h2 k v h
    · intro h
      exact ⟨h kv.1 kv.2 (Or.inl rfl), fun k v hm => h k v (Or.inr hm)⟩

theorem scanChildren_inl (cs : List (Option String × JVal)) :
    ∀ occ occ', scanChildren cs occ = .inl occ' →
      occ' = occ ++ cs.filterMap Prod.fst ∧
      ∀ k v, (some k, v) ∈ cs → doCheckDupJSONKeys k v = none := by
  induction cs with
  | nil => intro occ occ' h; simp [scanChildren] at h; simp [h]
  | cons c rest ih =>
    intro occ occ' h
    match c with
    | (none, v) =>
      rw [scanChildren] at h
      obtain ⟨h1, h2⟩ := ih occ occ' h
      refine ⟨by simpa using h1, ?_⟩
      intro k v' hm
      rcases List.mem_cons.1 hm with h' | h'
      · simp at h'
      · exact h2 k v' h'
    | (some k, v) =>
      rw [scanChildren] at h
      cases hd : doCheckDupJSONKeys k v with
      | some e => rw [hd] at h; simp at h
      | none =>
        rw [hd] at h
        obtain ⟨h1, h2⟩ := ih (occ ++ [k]) occ' h
        refine ⟨by simpa using h1, ?_⟩
        intro k' v' hm
        rcases List.mem_cons.1 hm with h' | h'
        · simp only [Prod.mk.injEq, Option.some.injEq] at h'
          obtain ⟨rfl, rfl⟩ := h'
          exact hd
        · exact h2 k' v' h'

theorem scanChildren_all_none (cs : List (Option String × JVal)) :
    ∀ occ, (∀ k v, (some k, v) ∈ cs → doCheckDupJSONKeys k v = none) →
      scanChildren cs occ = .inl (occ ++ cs.filterMap Prod.fst) := by
  induction cs with
  | nil => intro occ _; simp [scanChildren]
  | cons c rest ih =>
    intro occ h
    match c with
    | (none, v) =>
      rw [scanChildren]
      have := ih occ (fun k v hm => h k v (List.mem_cons_of_mem _ hm))
      simpa using this
    | (some k, v) =>
      rw [scanChildren]
      have hd : doCheckDupJSONKeys k v = none := h k v (List.mem_cons_self _ _)
      rw [hd]
      have := ih (occ ++ [k]) (fun k' v' hm => h k' v' (List.mem_cons_of_mem _ hm))
      simpa using this

theorem scanChildren_inr (cs : List (Option String × JVal)) :
    ∀ occ e, scanChildren cs occ = .inr e →
      ∃ k v, (some k, v) ∈ cs ∧ doCheckDupJSONKeys k v = some e := by
  induction cs with
  | nil => intro occ e h; simp [scanChildren] at h
  | cons c rest ih =>
    intro occ e h
    match c with
    | (none, v) =>
      rw [scanChildren] at h
      obtain ⟨k', v', hm, hd⟩ := ih occ e h
      exact ⟨k', v', List.mem_cons_of_mem _ hm, hd⟩
    | (some k, v) =>
      rw [scanChildren] at h
      cases hd : doCheckDupJSONKeys k v with
      | some e' =>
        rw [hd] at h
        cases h
        exact ⟨k, v, List.mem_cons_self _ _, hd⟩
      | none =>
        rw [hd] at h
        obtain ⟨k', v', hm, hd'⟩ := ih (occ ++ [k]) e h
        exact ⟨k', v', List.mem_cons_of_mem _ hm, hd'⟩

theorem mem_namedChildren (entries : List (String × JVal)) (k : String) (v : JVal) :
    (some k, v) ∈ entries.map (fun kv => ((some kv.1 : Option String), kv.2)) ↔
      (k, v) ∈ entries := by
  rw [List.mem_map]
  constructor
  · rintro ⟨⟨k', v'⟩, hm, heq⟩
    simp only [Prod.mk.injEq, Option.some.injEq] at heq
    obtain ⟨rfl, rfl⟩ := heq
    exact hm
  · intro hm
    exact ⟨(k, v), hm, rfl⟩

theorem filterMap_namedChildren (entries : List (String × JVal)) :
    (entries.map fun kv => ((some kv.1 : Option String), kv.2)).filterMap Prod.fst =
      entries.map Prod.fst := by
  induction entries with
  | nil => simp
  | cons kv rest ih => simp [ih]

theorem jsize_lt_of_mem (entries : List (String × JVal)) (k : String) (v : JVal)
    (h : (k, v) ∈ entries) : jsize v < jsize (.obj entries) := by
  rw [jsize]
  have : jsize v + 2 ≤ esize entries := by
    induction entries with
    | nil => simp at h
    | cons kv rest ih =>
      obtain ⟨k', v'⟩ := kv
      rw [esize]
      rcases List.mem_cons.1 h with h' | h'
      · simp only [Prod.mk.injEq] at h'
        obtain ⟨rfl, rfl⟩ := h'
        show jsize v + 2 ≤ 2 + jsize v + esize rest
        omega
      · have := ih h'; omega
  omega

theorem doCheck_none_iff_aux : ∀ n value, jsize value ≤ n → ∀ key,
    (doCheckDupJSONKeys key value = none ↔ hasDup value = false) := by
  intro n
  induction n with
  | zero =>
    intro value h key
    exfalso
    cases value <;> simp [jsize] at h
  | succ n ih =>
    intro value hsz key
    cases value with
    | obj entries =>
      rw [doCheckDupJSONKeys]
      split
      next e hscan =>
        simp only [reduceCtorEq, false_iff]
        intro hfalse
        rw [hasDup, Bool.or_eq_false_iff] at hfalse
        obtain ⟨hdk, hde⟩ := hfalse
        have hall : ∀ k v, (some k, v) ∈ forEachChildren (.obj entries) →
            doCheckDupJSONKeys k v = none := by
          intro k v hm
          rw [forEachChildren] at hm
          have hm' := (mem_namedChildren entries k v).1 hm
          have hsz' : jsize v ≤ n := by
            have := jsize_lt_of_mem entries k v hm'
            omega
          rw [ih v hsz' k]
          exact (hasDupEntries_eq_false_iff entries).1 hde k v hm'
        have := scanChildren_all_none _ [] hall
        rw [hscan] at this
        cases this
      next occ hscan =>
        obtain ⟨hocc, hnone⟩ := scanChildren_inl _ [] _ hscan
        rw [forEachChildren, filterMap_namedChildren] at hocc
        simp only [List.nil_append] at hocc
        subst hocc
        split
        next d hfd =>
          simp only [reduceCtorEq, false_iff]
          intro hfalse
          rw [hasDup, Bool.or_eq_false_iff] at hfalse
          rw [dupKeys_of_firstDup_some _ _ hfd] at hfalse
          simp at hfalse
        next hfd =>
          simp only [true_iff]
          rw [hasDup, Bool.or_eq_false_iff]
          refine ⟨(firstDup_eq_none_iff _).1 hfd, ?_⟩
          rw [hasDupEntries_eq_false_iff]
          intro k v hm
          have hsz' : jsize v ≤ n := by
            have := jsize_lt_of_mem entries k v hm
            omega
          rw [← ih v hsz' k]
          exact hnone k v (by rw [forEachChildren]; exact (mem_namedChildren entries k v).2 hm)
    | arr elems =>
      rw [doCheckDupJSONKeys]
      have hall : ∀ k v, (some k, v) ∈ forEachChildren (.arr elems) →
          doCheckDupJSONKeys k v = none := by
        intro k v hm
        rw [forEachChildren] at hm
        simp at hm
      rw [scanChildren_all_none _ [] hall]
      simp [forEachChildren, List.filterMap_map, firstDup, hasDup]
    | null =>
      rw [doCheckDupJSONKeys]
      have hall : ∀ k v, (some k, v) ∈ forEachChildren .null →
          doCheckDupJSONKeys k v = none := by
        intro k v hm
        simp [forEachChildren] at hm
      rw [scanChildren_all_none _ [] hall]
      simp [forEachChildren, firstDup, hasDup]
    | bool b =>
      rw [doCheckDupJSONKeys]
      have hall : ∀ k v, (some k, v) ∈ forEachChildren (.bool b) →
          doCheckDupJSONKeys k v = none := by
        intro k v hm
        simp [forEachChildren] at hm
      rw [scanChildren_all_none _ [] hall]
      simp [forEachChildren, firstDup, hasDup]
    | num s =>
      rw [doCheckDupJSONKeys]
      have hall : ∀ k v, (some k, v) ∈ forEachChildren (.num s) →
          doCheckDupJSONKeys k v = none := by
        intro k v hm
        simp [forEachChildren] at hm
      rw [scanChildren_all_none _ [] hall]
      simp [forEachChildren, firstDup, hasDup]
    | str s =>
      rw [doCheckDupJSONKeys]
      have hall : ∀ k v, (some k, v) ∈ forEachChildren (.str s) →
          doCheckDupJSONKeys k v = none := by
        intro k v hm
        simp [forEachChildren] at hm
      rw [scanChildren_all_none _ [] hall]
      simp [forEachChildren, firstDup, hasDup]

theorem doCheck_none_iff (key : String) (value : JVal) :
    doCheckDupJSONKeys key value = none ↔ hasDup value = false :=
  doCheck_none_iff_aux (jsize value) value le_rfl key

theorem doCheck_some_sound : ∀ n value, jsize value ≤ n → ∀ key msg,
    doCheckDupJSONKeys key value = some msg →
    ∃ e d pre, DupScopeAt key value e d ∧
      msg = pre ++ (e ++ " => `" ++ d ++ "` entry is duplicated") := by
  intro n
  induction n with
  | zero =>
    intro value h key msg
    exfalso
    cases value <;> simp [jsize] at h
  | succ n ih =>
    intro value hsz key msg hsome
    cases value with
    | obj entries =>
      rw [doCheckDupJSONKeys] at hsome
      revert hsome
      split
      next e hscan =>
        intro hsome
        obtain ⟨k, v, hm, hd⟩ := scanChildren_inr _ [] e hscan
        rw [forEachChildren] at hm
        have hm' := (mem_namedChildren entries k v).1 hm
        have hsz' : jsize v ≤ n := by
          have := jsize_lt_of_mem entries k v hm'
          omega
        obtain ⟨e', d, pre', hds, hmsg⟩ := ih v hsz' k e hd
        refine ⟨e', d, key ++ " => " ++ pre',
          DupScopeAt.there key entries k v e' d hm' hds, ?_⟩
        cases hsome
        rw [hmsg]
        simp [String.append_assoc]
      next occ hscan =>
        obtain ⟨hocc, _⟩ := scanChildren_inl _ [] _ hscan
        rw [forEachChildren, filterMap_namedChildren] at hocc
        simp only [List.nil_append] at hocc
        subst hocc
        split
        next d hfd =>
          intro hsome
          obtain ⟨_, hc⟩ := firstDup_eq_some _ d hfd
          refine ⟨key, d, "", DupScopeAt.here key entries d hc, ?_⟩
          cases hsome
          simp [String.append_assoc]
        next hfd =>
          intro hsome
          cases hsome
    | arr elems =>
      exfalso
      have : doCheckDupJSONKeys key (.arr elems) = none := by
        rw [doCheck_none_iff]
        simp [hasDup]
      rw [this] at hsome
      cases hsome
    | null =>
      exfalso
      have : doCheckDupJSONKeys key .null = none := by
        rw [doCheck_none_iff]
        simp [hasDup]
      rw [this] at hsome
      cases hsome
    | bool b =>
      exfalso
      have : doCheckDupJSONKeys key (.bool b) = none := by
        rw [doCheck_none_iff]
        simp [hasDup]
      rw [this] at hsome
      cases hsome
    | num s =>
      exfalso
      have : doCheckDupJSONKeys key (.num s) = none := by
        rw [doCheck_none_iff]
        simp [hasDup]
      rw [this] at hsome
      cases hsome
    | str s =>
      exfalso
      have : doCheckDupJSONKeys key (.str s) = none := by
        rw [doCheck_none_iff]
        simp [hasDup]
      rw [this] at hsome
      cases hsome

theorem hasDup_false_of_anywhere_false : ∀ n v, jsize v ≤ n →
    hasDupAnywhere v = false → hasDup v = false := by
  intro n
  induction n with
  | zero =>
    intro v h
    exfalso
    cases v <;> simp [jsize] at h
  | succ n ih =>
    intro v hsz ha
    cases v with
    | obj entries =>
      rw [hasDupAnywhere, Bool.or_eq_false_iff] at ha
      obtain ⟨h1, h2⟩ := ha
      rw [hasDup, Bool.or_eq_false_iff]
      refine ⟨h1, ?_⟩
      rw [hasDupEntries_eq_false_iff]
      intro k v' hm
      have hsz' : jsize v' ≤ n := by
        have := jsize_lt_of_mem entries k v' hm
        omega
      exact ih v' hsz' ((hasDupAnywhereEntries_eq_false_iff entries).1 h2 k v' hm)
    | arr elems => simp [hasDup]
    | null => simp [hasDup]
    | bool b => simp [hasDup]
    | num s => simp [hasDup]
    | str s => simp [hasDup]

/-! ## Claim theorems -/

/-- C1 (amended): for every JSON document containing an object scope with a
repeated key name that is reachable from the root through object members
only, `checkDupJSONKeys` returns a failure, and the failure's breadcrumb
path ends with ``<enclosing key> => `<duplicated key>` entry is duplicated``
for the offending scope it reports — i.e. it includes that scope's
enclosing key name and the duplicated key name.  (The original claim's
"including object scopes nested inside arrays" fails on the code: the
scanner's Null-key guard skips array elements entirely, see
`checkDupJSONKeys_misses_dup_inside_array`.) -/
theorem checkDupJSONKeys_fails_on_reachable_dup (doc : JVal)
    (h : hasDup doc = true) :
    ∃ msg e d, checkDupJSONKeys doc = some msg ∧ DupScopeAt minioConfigFile doc e d ∧
      ∃ pre, msg = pre ++ (e ++ " => `" ++ d ++ "` entry is duplicated") := by
  have hne : doCheckDupJSONKeys minioConfigFile doc ≠ none := by
    intro hnone
    rw [doCheck_none_iff] at hnone
    rw [hnone] at h
    cases h
  cases hmsg : doCheckDupJSONKeys minioConfigFile doc with
  | none => exact absurd hmsg hne
  | some msg =>
    obtain ⟨e, d, pre, hds, hstruct⟩ :=
      doCheck_some_sound (jsize doc) doc le_rfl minioConfigFile msg hmsg
    exact ⟨msg, e, d, by simpa [checkDupJSONKeys] using hmsg, hds, pre, hstruct⟩

/-- C1 counterexample: the document `{"x": [{"a":1,"a":2}]}` contains an
object scope with the repeated key `"a"`, but that scope sits inside an
array, and `checkDupJSONKeys` returns success — refuting the original
claim's "this holds regardless of where in the document the offending scope
sits (including object scopes nested inside arrays)". -/
theorem checkDupJSONKeys_misses_dup_inside_array :
    hasDupAnywhere (.obj [("x", .arr [.obj [("a", .num "1"), ("a", .num "2")]])]) = true ∧
    checkDupJSONKeys (.obj [("x", .arr [.obj [("a", .num "1"), ("a", .num "2")]])]) = none := by
  constructor
  · simp [hasDupAnywhere, hasDupAnywhereEntries, hasDupAnywhereElems, dupKeys]
  · simp [checkDupJSONKeys, doCheckDupJSONKeys, scanChildren, forEachChildren, firstDup]

/-- Witness for C1 at the document `{"notify":{"amqp":{"1":null,"1":"x"}}}`,
whose repeated key `"1"` is reachable through object members only. -/
theorem checkDupJSONKeys_fails_on_reachable_dup_witness :
    hasDup (.obj [("notify", .obj [("amqp", .obj [("1", .null), ("1", .str "x")])])]) = true ∧
    (∃ msg e d,
      checkDupJSONKeys
          (.obj [("notify", .obj [("amqp", .obj [("1", .null), ("1", .str "x")])])]) =
        some msg ∧
      DupScopeAt minioConfigFile
        (.obj [("notify", .obj [("amqp", .obj [("1", .null), ("1", .str "x")])])]) e d ∧
      ∃ pre, msg = pre ++ (e ++ " => `" ++ d ++ "` entry is duplicated")) :=
  ⟨by simp [hasDup, hasDupEntries, dupKeys],
   checkDupJSONKeys_fails_on_reachable_dup _ (by simp [hasDup, hasDupEntries, dupKeys])⟩

/-- C3: for every JSON document with no repeated key within any single
object scope (anywhere in the document, arrays included),
`checkDupJSONKeys` returns success — in particular the same key name in two
different scopes is not reported, because the occurrence table is created
fresh for each scope. -/
theorem checkDupJSONKeys_succeeds_without_dup (doc : JVal)
    (h : hasDupAnywhere doc = false) :
    checkDupJSONKeys doc = none := by
  simp only [checkDupJSONKeys]
  rw [doCheck_none_iff]
  exact hasDup_false_of_anywhere_false (jsize doc) doc le_rfl h

/-- Witness for C3 at `{"a":{"1":"x"},"b":{"1":"y"}}`: two sibling scopes
each containing the key `"1"` do not trigger a false positive. -/
theorem checkDupJSONKeys_succeeds_without_dup_witness :
    hasDupAnywhere (.obj [("a", .obj [("1", .str "x")]), ("b", .obj [("1", .str "y")])]) =
      false ∧
    checkDupJSONKeys (.obj [("a", .obj [("1", .str "x")]), ("b", .obj [("1", .str "y")])]) =
      none :=
  ⟨by simp [hasDupAnywhere, hasDupAnywhereEntries, hasDupAnywhereElems, dupKeys],
   checkDupJSONKeys_succeeds_without_dup _
     (by simp [hasDupAnywhere, hasDupAnywhereEntries, hasDupAnywhereElems, dupKeys])⟩

/-- Shape of `loadConfig` on the successful-deserialization path: the
published snapshot is the deserialized one after the environment overrides,
the browser flag is cleared exactly when that snapshot's browser value
lowercases to "off", and the result is the version-mismatch error or nil. -/
theorem loadConfig_ok_shape (loadedCfg : serverConfigV15)
    (isEnvCreds isEnvBrowser : Bool) (env : envParams) (st : ProcessState) :
    loadConfig none none (.ok loadedCfg) isEnvCreds isEnvBrowser env st =
      (let cfg := if isEnvBrowser then
          (if isEnvCreds then loadedCfg.SetCredential env.creds else loadedCfg).SetBrowser
            env.browser
        else (if isEnvCreds then loadedCfg.SetCredential env.creds else loadedCfg)
       ((if cfg.Version ≠ v15 then
          some ("Unsupported config version `" ++ cfg.Version ++ "`.") else none),
        { serverConfig := some cfg,
          globalIsBrowserEnabled :=
            if goToLower cfg.GetBrowser = "off" then false
            else st.globalIsBrowserEnabled })) := by
  simp only [loadConfig]
  split <;> split <;> split <;>
    simp [apply_ite (fun s : ProcessState => s.globalIsBrowserEnabled)]

/-- C2: when `loadConfig` successfully deserializes a persisted document
whose version field differs from the supported version "15", it returns the
version-mismatch error, but the mismatched (env-overridden) snapshot has
already been stored as the globally published `serverConfig` and remains
published after the error is returned — no rollback. -/
theorem loadConfig_version_mismatch_keeps_snapshot_published
    (loadedCfg : serverConfigV15) (isEnvCreds isEnvBrowser : Bool)
    (env : envParams) (st : ProcessState) (hv : loadedCfg.Version ≠ v15) :
    (loadConfig none none (.ok loadedCfg) isEnvCreds isEnvBrowser env st).1 =
      some ("Unsupported config version `" ++ loadedCfg.Version ++ "`.") ∧
    (loadConfig none none (.ok loadedCfg) isEnvCreds isEnvBrowser env st).2.serverConfig =
      some (if isEnvBrowser then
          (if isEnvCreds then loadedCfg.SetCredential env.creds else loadedCfg).SetBrowser
            env.browser
        else (if isEnvCreds then loadedCfg.SetCredential env.creds else loadedCfg)) := by
  have hpres : (if isEnvBrowser then
      (if isEnvCreds then loadedCfg.SetCredential env.creds else loadedCfg).SetBrowser
        env.browser
      else (if isEnvCreds then loadedCfg.SetCredential env.creds
        else loadedCfg)).Version = loadedCfg.Version := by
    cases isEnvCreds <;> cases isEnvBrowser <;>
      simp [serverConfigV15.SetCredential, serverConfigV15.SetBrowser]
  rw [loadConfig_ok_shape]
  simp only [hpres]
  simp [hv]

/-- Witness for C2: a stored version "14" document, no environment
overrides; the error surfaces and the snapshot stays published. -/
theorem loadConfig_version_mismatch_keeps_snapshot_published_witness :
    (({ Version := "14", Credential := ⟨"AK", "SK"⟩, Region := "", Browser := "",
        Logger := {}, Notify := {} } : serverConfigV15).Version ≠ v15) ∧
    (loadConfig none none
        (.ok { Version := "14", Credential := ⟨"AK", "SK"⟩, Region := "", Browser := "",
               Logger := {}, Notify := {} })
        false false { creds := ⟨"", ""⟩, browser := "" } ⟨none, true⟩).1 =
      some ("Unsupported config version `14`.") ∧
    (loadConfig none none
        (.ok { Version := "14", Credential := ⟨"AK", "SK"⟩, Region := "", Browser := "",
               Logger := {}, Notify := {} })
        false false { creds := ⟨"", ""⟩, browser := "" } ⟨none, true⟩).2.serverConfig =
      some { Version := "14", Credential := ⟨"AK", "SK"⟩, Region := "", Browser := "",
             Logger := {}, Notify := {} } := by
  have h := loadConfig_version_mismatch_keeps_snapshot_published
    { Version := "14", Credential := ⟨"AK", "SK"⟩, Region := "", Browser := "",
      Logger := {}, Notify := {} }
    false false { creds := ⟨"", ""⟩, browser := "" } ⟨none, true⟩ (by decide)
  refine ⟨by decide, ?_, ?_⟩
  · exact h.1
  · simpa using h.2

/-- C4: `validateConfig`, on a document that deserializes successfully but
whose version field differs from "15", returns the version error — for
*every* value of the raw-bytes re-read, the duplicate-key scanner input,
and the region / browser / credential / logger / notify validations, none
of which is consulted. -/
theorem validateConfig_version_mismatch_short_circuits
    (cfg : serverConfigV15) (readFileRes : Except String JVal)
    (credIsValid : Bool) (loggerErr notifyErr : Option String)
    (hv : cfg.Version ≠ v15) :
    validateConfig none (.ok cfg) readFileRes credIsValid loggerErr notifyErr =
      some ("bad config version, expected: " ++ v15) := by
  simp [validateConfig, serverConfigV15.GetVersion, hv]

/-- Witness for C4: a version-"14" document together with a raw re-read
that *does* contain a duplicate key, an invalid credential and failing
logger/notify validators — the result is still only the version error. -/
theorem validateConfig_version_mismatch_short_circuits_witness :
    (({ Version := "14", Credential := ⟨"AK", "SK"⟩, Region := "", Browser := "zzz",
        Logger := {}, Notify := {} } : serverConfigV15).Version ≠ v15) ∧
    validateConfig none
      (.ok { Version := "14", Credential := ⟨"AK", "SK"⟩, Region := "", Browser := "zzz",
             Logger := {}, Notify := {} })
      (.ok (.obj [("a", .null), ("a", .null)])) false (some "logger bad")
      (some "notify bad") =
      some ("bad config version, expected: " ++ v15) :=
  ⟨by decide,
   validateConfig_version_mismatch_short_circuits _ _ _ _ _ (by decide)⟩

/-- C6 counterexample: a successful `loadConfig` of a snapshot whose
browser value is "on", starting from a state in which
`globalIsBrowserEnabled` is already false (e.g. left over from an earlier
load of an "off" config), leaves the flag false — so "the flag is false if
and only if the loaded browser value, lowercased, equals \"off\"" fails:
the code only ever *clears* the flag, it never sets it. -/
theorem loadConfig_browser_flag_not_iff :
    (loadConfig none none
        (.ok { Version := "15", Credential := ⟨"AK", "SK"⟩, Region := "", Browser := "on",
               Logger := {}, Notify := {} })
        false false { creds := ⟨"", ""⟩, browser := "" } ⟨none, false⟩).1 = none ∧
    ¬(((loadConfig none none
        (.ok { Version := "15", Credential := ⟨"AK", "SK"⟩, Region := "", Browser := "on",
               Logger := {}, Notify := {} })
        false false { creds := ⟨"", ""⟩, browser := "" }
        ⟨none, false⟩).2.globalIsBrowserEnabled = false) ↔
      (goToLower ({ Version := "15", Credential := ⟨"AK", "SK"⟩, Region := "",
                    Browser := "on", Logger := {},
                    Notify := {} } : serverConfigV15).GetBrowser = "off")) := by
  constructor
  · decide
  · decide

/-- C6 (amended): after a successful `loadConfig`, `globalIsBrowserEnabled`
is false if the published snapshot's browser value, lowercased, equals
"off", and otherwise it *retains its prior value* (the code clears the flag
but never sets it); in particular the originally claimed equivalence holds
whenever the flag was true before the call. -/
theorem loadConfig_browser_flag_only_cleared
    (loadedCfg : serverConfigV15) (isEnvCreds isEnvBrowser : Bool)
    (env : envParams) (st : ProcessState)
    (hok : (loadConfig none none (.ok loadedCfg) isEnvCreds isEnvBrowser env st).1 = none) :
    ∃ pub,
      (loadConfig none none (.ok loadedCfg) isEnvCreds isEnvBrowser env st).2.serverConfig =
        some pub ∧
      (loadConfig none none
          (.ok loadedCfg) isEnvCreds isEnvBrowser env st).2.globalIsBrowserEnabled =
        (if goToLower pub.GetBrowser = "off" then false else st.globalIsBrowserEnabled) ∧
      (st.globalIsBrowserEnabled = true →
        ((loadConfig none none
            (.ok loadedCfg) isEnvCreds isEnvBrowser env st).2.globalIsBrowserEnabled = false ↔
          goToLower pub.GetBrowser = "off")) := by
  rw [loadConfig_ok_shape]
  refine ⟨_, rfl, rfl, ?_⟩
  intro hpre
  rw [hpre]
  simp

/-- Witness for C6: loading an "off"-browser version-15 snapshot from the
initial all-true state clears the flag. -/
theorem loadConfig_browser_flag_only_cleared_witness :
    (loadConfig none none
        (.ok { Version := "15", Credential := ⟨"AK", "SK"⟩, Region := "", Browser := "off",
               Logger := {}, Notify := {} })
        false false { creds := ⟨"", ""⟩, browser := "" } ⟨none, true⟩).1 = none ∧
    (∃ pub,
      (loadConfig none none
          (.ok { Version := "15", Credential := ⟨"AK", "SK"⟩, Region := "", Browser := "off",
                 Logger := {}, Notify := {} })
          false false { creds := ⟨"", ""⟩, browser := "" } ⟨none, true⟩).2.serverConfig =
        some pub ∧
      (loadConfig none none
          (.ok { Version := "15", Credential := ⟨"AK", "SK"⟩, Region := "", Browser := "off",
                 Logger := {}, Notify := {} })
          false false { creds := ⟨"", ""⟩, browser := "" }
          ⟨none, true⟩).2.globalIsBrowserEnabled =
        (if goToLower pub.GetBrowser = "off" then false
          else (⟨none, true⟩ : ProcessState).globalIsBrowserEnabled) ∧
      ((⟨none, true⟩ : ProcessState).globalIsBrowserEnabled = true →
        ((loadConfig none none
            (.ok { Version := "15", Credential := ⟨"AK", "SK"⟩, Region := "", Browser := "off",
                   Logger := {}, Notify := {} })
            false false { creds := ⟨"", ""⟩, browser := "" }
            ⟨none, true⟩).2.globalIsBrowserEnabled = false ↔
          goToLower pub.GetBrowser = "off"))) :=
  ⟨by decide,
   loadConfig_browser_flag_only_cleared
     { Version := "15", Credential := ⟨"AK", "SK"⟩, Region := "", Browser := "off",
       Logger := {}, Notify := {} }
     false false { creds := ⟨"", ""⟩, browser := "" } ⟨none, true⟩ (by decide)⟩

/-- C7: `SetRegion ""` followed by `GetRegion` returns the fallback
constant "us-east-1" (the setter stores the fallback), and `SetRegion r`
for any non-empty `r` followed by `GetRegion` returns `r` unchanged. -/
theorem setRegion_getRegion_roundtrip (s : serverConfigV15) (r : String) :
    (s.SetRegion "").GetRegion = "us-east-1" ∧
    (r ≠ "" → (s.SetRegion r).GetRegion = r) := by
  constructor
  · simp [serverConfigV15.SetRegion, serverConfigV15.GetRegion]
  · intro hr
    simp [serverConfigV15.SetRegion, serverConfigV15.GetRegion, hr]

/-- Witness for C7 with `r = "eu-west-1"` on a concrete snapshot. -/
theorem setRegion_getRegion_roundtrip_witness :
    (({ Version := "15", Credential := ⟨"AK", "SK"⟩, Region := "x", Browser := "",
        Logger := {}, Notify := {} } : serverConfigV15).SetRegion "").GetRegion =
      "us-east-1" ∧
    (({ Version := "15", Credential := ⟨"AK", "SK"⟩, Region := "x", Browser := "",
        Logger := {}, Notify := {} } : serverConfigV15).SetRegion "eu-west-1").GetRegion =
      "eu-west-1" :=
  ⟨(setRegion_getRegion_roundtrip
      { Version := "15", Credential := ⟨"AK", "SK"⟩, Region := "x", Browser := "",
        Logger := {}, Notify := {} } "eu-west-1").1,
   (setRegion_getRegion_roundtrip
      { Version := "15", Credential := ⟨"AK", "SK"⟩, Region := "x", Browser := "",
        Logger := {}, Notify := {} } "eu-west-1").2 (by decide)⟩

/-- C8: `SetBrowser ""` followed by `GetBrowser` returns "on" (the setter
stores "on"), and `SetBrowser v` for any non-empty `v` — including values
that would fail validation — followed by `GetBrowser` returns `v`
unchanged. -/
theorem setBrowser_getBrowser_roundtrip (s : serverConfigV15) (v : String) :
    (s.SetBrowser "").GetBrowser = "on" ∧
    (v ≠ "" → (s.SetBrowser v).GetBrowser = v) := by
  constructor
  · simp [serverConfigV15.SetBrowser, serverConfigV15.GetBrowser]
  · intro hv
    simp [serverConfigV15.SetBrowser, serverConfigV15.GetBrowser, hv]

/-- Witness for C8 with the value "maybe", which fails validation yet
round-trips. -/
theorem setBrowser_getBrowser_roundtrip_witness :
    (({ Version := "15", Credential := ⟨"AK", "SK"⟩, Region := "x", Browser := "on",
        Logger := {}, Notify := {} } : serverConfigV15).SetBrowser "").GetBrowser = "on" ∧
    (({ Version := "15", Credential := ⟨"AK", "SK"⟩, Region := "x", Browser := "on",
        Logger := {}, Notify := {} } : serverConfigV15).SetBrowser "maybe").GetBrowser =
      "maybe" :=
  ⟨(setBrowser_getBrowser_roundtrip
      { Version := "15", Credential := ⟨"AK", "SK"⟩, Region := "x", Browser := "on",
        Logger := {}, Notify := {} } "maybe").1,
   (setBrowser_getBrowser_roundtrip
      { Version := "15", Credential := ⟨"AK", "SK"⟩, Region := "x", Browser := "on",
        Logger := {}, Notify := {} } "maybe").2 (by decide)⟩

/-- C9: `GetRegion` never mutates the snapshot — the receiver after the
call is unchanged (every field, the `Region` field in particular), the
returned value substitutes the fallback "us-east-1" at read time exactly
when the stored region is empty, and the returned value is never the empty
string. -/
theorem getRegion_pure_fallback (s : serverConfigV15) :
    s.GetRegionCall.2 = s ∧
    s.GetRegionCall.1 = (if s.Region ≠ "" then s.Region else "us-east-1") ∧
    s.GetRegionCall.1 ≠ "" := by
  refine ⟨rfl, rfl, ?_⟩
  simp only [serverConfigV15.GetRegionCall, serverConfigV15.GetRegion]
  split
  next h => exact h
  next h => decide

/-- C10: the fresh-install default snapshot built by `newServerConfigV15`
has its browser field explicitly set to the literal "off", so `GetBrowser`
on the fresh default returns "off" — even though an empty browser field is
read as "on" by `GetBrowser`: the hard-coded default disables the browser
UI, the opposite of the empty-field default. -/
theorem newServerConfigV15_browser_off (freshCreds : credential) :
    (newServerConfigV15 freshCreds).Browser = "off" ∧
    (newServerConfigV15 freshCreds).GetBrowser = "off" ∧
    (∀ s : serverConfigV15, s.Browser = "" → s.GetBrowser = "on") := by
  refine ⟨?_, ?_, ?_⟩
  · simp [newServerConfigV15, serverConfigV15.SetBrowser, serverConfigV15.SetCredential]
  · simp [newServerConfigV15, serverConfigV15.SetBrowser, serverConfigV15.SetCredential,
      serverConfigV15.GetBrowser]
  · intro s hs
    simp [serverConfigV15.GetBrowser, hs]

/-- Witness for C10: the fresh default reads "off"; a snapshot with an
empty browser field reads "on". -/
theorem newServerConfigV15_browser_off_witness :
    (newServerConfigV15 ⟨"AK", "SK"⟩).GetBrowser = "off" ∧
    ({ Version := "15", Credential := ⟨"AK", "SK"⟩, Region := "x", Browser := "",
       Logger := {}, Notify := {} } : serverConfigV15).GetBrowser = "on" :=
  ⟨(newServerConfigV15_browser_off ⟨"AK", "SK"⟩).2.1,
   (newServerConfigV15_browser_off ⟨"AK", "SK"⟩).2.2 _ rfl⟩

end ConfigV15
